import Mathlib

/-!
Verification of the wasmtime JIT core against its specification.

The definitions below shallowly embed the Rust sources:
* `crates/jit/src/compiler.rs` (trampoline synthesis, strategy selection,
  relocation sink),
* `crates/wasmtime/src/store.rs` (module registration, fuel accounting,
  out-of-gas handling, resource counters),
and, where the deciding code is not part of the provided sources (the
`Func::call` validation path and the trap display/backtrace code, of which
only the tests are given), definitions modelled from the specification and
checked against the literal expectations of `crates/api/tests/traps.rs`.
-/

namespace Wasmtime

/-- Cranelift-style value types, as they appear in trampoline signatures
(`ir::AbiParam` value types; `ptr` stands for the target's pointer type). -/
inductive ValType where
  | i32
  | i64
  | f32
  | f64
  | ptr
deriving DecidableEq, Repr

/-- A function signature: parameter and result types
(`ir::Signature`, restricted to the fields the trampoline reads). -/
structure Signature where
  params : List ValType
  results : List ValType
deriving DecidableEq, Repr

/-- Values appearing in the synthesized trampoline body.  `blockParam i` is
the i-th parameter of the entry block (the wrapper's own parameters
`(vmctx, caller_vmctx, callee_address, values_vec)` for i = 0..3), `load`
is the result of a load instruction, and `callResult j` is the j-th result
of the indirect call. -/
inductive TVal where
  | blockParam (i : Nat)
  | load (ty : ValType) (base : TVal) (offset : Nat)
  | callResult (j : Nat)
deriving DecidableEq, Repr

/-- Instructions emitted into the trampoline body by `make_trampoline`. -/
inductive TInst where
  | load (ty : ValType) (base : TVal) (offset : Nat)
  | callIndirect (callee : TVal) (args : List TVal)
  | store (value : TVal) (base : TVal) (offset : Nat)
  | ret
deriving DecidableEq, Repr

/-- `std::mem::size_of::<u128>()`, the `value_size` that `Compiler::compile`
passes to `make_trampoline`. -/
def u128Size : Nat := 16

/-- The callee argument vector assembled by `make_trampoline`: the closure
mapped over `signature.params.iter().enumerate()` in `compiler.rs` — index 0
is the wrapper's own `vmctx` parameter, index 1 the wrapper's
`caller_vmctx` parameter, and every later index i is a load from
`values_vec` at byte offset `(i - 2) * value_size`. -/
def calleeArgs (sig : Signature) (value_size : Nat) : List TVal :=
  sig.params.enum.map fun p =>
    match p with
    | (0, _) => TVal.blockParam 0
    | (1, _) => TVal.blockParam 1
    | (i, r) => TVal.load r (TVal.blockParam 3) ((i - 2) * value_size)

/-- The load instructions emitted while assembling the callee arguments:
exactly the `load` values among `calleeArgs`, in order. -/
def loadInsts (sig : Signature) (value_size : Nat) : List TInst :=
  (calleeArgs sig value_size).filterMap fun v =>
    match v with
    | TVal.load ty base off => some (TInst.load ty base off)
    | _ => none

/-- The store instructions emitted after the call: the loop over
`results.iter().enumerate()` in `make_trampoline`, storing result j into
`values_vec` at byte offset `j * value_size`. -/
def storeInsts (sig : Signature) (value_size : Nat) : List TInst :=
  sig.results.enum.map fun p =>
    TInst.store (TVal.callResult p.1) (TVal.blockParam 3) (p.1 * value_size)

/-- The synthesized trampoline: its wrapper (host-ABI) parameter list and
its instruction body. -/
structure TrampolineFunc where
  wrapperParams : List ValType
  body : List TInst
deriving DecidableEq, Repr

/-- `make_trampoline` from `crates/jit/src/compiler.rs`: builds the wrapper
signature `(vmctx, caller_vmctx, callee_address, values_vec)` (four
pointer-typed parameters), emits the argument loads, one indirect call to
the `callee_address` block parameter, the result stores, and a return. -/
def make_trampoline (sig : Signature) (value_size : Nat) : TrampolineFunc :=
  { wrapperParams := [ValType.ptr, ValType.ptr, ValType.ptr, ValType.ptr]
    body :=
      loadInsts sig value_size
        ++ [TInst.callIndirect (TVal.blockParam 2) (calleeArgs sig value_size)]
        ++ storeInsts sig value_size
        ++ [TInst.ret] }

/-- `CompilationStrategy` from `compiler.rs` (the `Lightbeam` variant is
behind a disabled cargo feature and does not exist in this build). -/
inductive CompilationStrategy where
  | auto
  | cranelift
deriving DecidableEq, Repr

/-- A translated module as consumed by `Compiler::compile`: its signature
table (and, abstractly, whatever the code generator consumes). -/
structure ModuleTranslation where
  signatures : List Signature
deriving DecidableEq, Repr

/-- The result of `Compiler::compile`: the code generator's output for the
function bodies (kept abstract as a type parameter) together with the
per-signature trampolines. -/
structure Compilation (κ : Type) where
  functions : κ
  trampolines : List TrampolineFunc

/-- `Compiler::compile` from `compiler.rs`: selects the code generator by
strategy — the match arm `CompilationStrategy::Auto | CompilationStrategy::Cranelift`
invokes Cranelift for both — and then synthesizes one trampoline per
signature with `value_size = size_of::<u128>()`. -/
def Compiler.compile {κ : Type} (cranelift_compile_module : ModuleTranslation → κ)
    (strategy : CompilationStrategy) (translation : ModuleTranslation) :
    Compilation κ :=
  let functions :=
    match strategy with
    | CompilationStrategy.auto | CompilationStrategy.cranelift =>
      cranelift_compile_module translation
  { functions := functions
    trampolines :=
      translation.signatures.map fun sig => make_trampoline sig u128Size }

/-- `ir::ExternalName`: the name attached to an external relocation.
`user` is `ExternalName::User { namespace, index }`, `testcase` is
`ExternalName::TestCase`, and `libCall` is `ExternalName::LibCall`
(libcalls identified by a numeric code). -/
inductive ExternalName where
  | user (nspace : Nat) (index : Nat)
  | testcase (name : String)
  | libCall (lc : Nat)
deriving DecidableEq, Repr

/-- `wasmtime_environ::RelocationTarget`, restricted to the variants the
trampoline sink can emit or reject. -/
inductive RelocationTarget where
  | userFunc (index : Nat)
  | libCall (lc : Nat)
deriving DecidableEq, Repr

/-- `wasmtime_environ::Relocation`: the record pushed by the sink. -/
structure Relocation where
  reloc : Nat
  reloc_target : RelocationTarget
  offset : Nat
  addend : Int
deriving DecidableEq, Repr

/-- A relocation event delivered by codegen to a `binemit::RelocSink`:
one constructor per sink method (`reloc_block`, `reloc_external`,
`reloc_constant`, `reloc_jt`). -/
inductive RelocEvent where
  | block (offset : Nat) (reloc : Nat) (blockOffset : Nat)
  | external (offset : Nat) (reloc : Nat) (name : ExternalName) (addend : Int)
  | constant (codeOffset : Nat) (reloc : Nat) (constantOffset : Nat)
  | jumpTable (offset : Nat) (reloc : Nat) (jt : Nat)
deriving DecidableEq, Repr

namespace RelocSink

/-- One sink callback of the trampoline `RelocSink` in `compiler.rs`:
a libcall external name is recorded; every other event panics
(modelled as `Except.error` with the panic message), aborting
compilation. -/
def step (relocs : List Relocation) : RelocEvent → Except String (List Relocation)
  | RelocEvent.block _ _ _ =>
    Except.error "trampoline compilation should not produce block relocs"
  | RelocEvent.external offset reloc name addend =>
    match name with
    | ExternalName.libCall lc =>
      Except.ok (relocs ++ [⟨reloc, RelocationTarget.libCall lc, offset, addend⟩])
    | _ => Except.error "unrecognized external name"
  | RelocEvent.constant _ _ _ =>
    Except.error "trampoline compilation should not produce constant relocs"
  | RelocEvent.jumpTable _ _ _ =>
    Except.error "trampoline compilation should not produce jump table relocs"

/-- Feed a sequence of relocation events through the sink, starting from an
accumulated relocation list. -/
def runFrom (relocs : List Relocation) : List RelocEvent → Except String (List Relocation)
  | [] => Except.ok relocs
  | e :: rest =>
    match step relocs e with
    | Except.ok relocs2 => runFrom relocs2 rest
    | Except.error msg => Except.error msg

/-- Feed a sequence of relocation events through a fresh (`Default`) sink. -/
def run (events : List RelocEvent) : Except String (List Relocation) :=
  runFrom [] events

/-- An event the sink accepts: an external relocation whose name is a
libcall. -/
def isLibCallEvent : RelocEvent → Bool
  | RelocEvent.external _ _ (ExternalName.libCall _) _ => true
  | _ => false

end RelocSink

/-- A compiled module as seen by `Store` registration: the identity of its
`ModuleCode` `Arc` (pointer identity, modelled by a number), the published
`(start, end)` ranges of its finished functions in order, its stack maps
keyed by function code range, and its signature table (wasm signature key
paired with the trampoline recorded for it). -/
structure CompiledModuleM where
  codeId : Nat
  functionRanges : List (Nat × Nat)
  stackMaps : List ((Nat × Nat) × Nat)
  sigs : List (Nat × Nat)
deriving DecidableEq, Repr

/-- Modelled from the spec: `StoreFrameInfo` (its file is not among the
sources; only `store.rs` callers are).  The frame-info index holds the
published PC ranges of registered modules, each tagged with the module's
code identity; `contains_pc` classifies a program counter, `register`
inserts a module's published ranges. -/
structure StoreFrameInfo where
  ranges : List (Nat × Nat × Nat)
deriving DecidableEq, Repr

/-- Modelled from the spec: PC classification over the frame-info index. -/
def StoreFrameInfo.contains_pc (info : StoreFrameInfo) (pc : Nat) : Bool :=
  info.ranges.any fun r => decide (r.1 ≤ pc) && decide (pc < r.2.1)

/-- Modelled from the spec: registering a module inserts its published PC
ranges into the frame-info index. -/
def StoreFrameInfo.register (info : StoreFrameInfo) (m : CompiledModuleM) :
    StoreFrameInfo :=
  { ranges := info.ranges ++ m.functionRanges.map fun r => (r.1, r.2, m.codeId) }

/-- Whether an association list holds an entry with the given key. -/
def keyMem {κ ν : Type} [DecidableEq κ] (l : List (κ × ν)) (k : κ) : Bool :=
  l.any fun p => decide (p.1 = k)

/-- Insert into an association list keyed by the first component, skipping
the insertion when the key is already present (registry-style interning). -/
def insertKeyed {κ ν : Type} [DecidableEq κ] (l : List (κ × ν)) (k : κ) (v : ν) :
    List (κ × ν) :=
  if keyMem l k then l else l ++ [(k, v)]

/-- Modelled from the spec: the `StackMapRegistry`, a map from published
function code ranges to that function's stack maps. -/
abbrev StackMapRegistryM : Type := List ((Nat × Nat) × Nat)

/-- Modelled from the spec: the `SignatureRegistry` interns wasm function
signatures; registering a signature already present is a lookup, not an
insertion. -/
abbrev SignatureRegistryM : Type := List (Nat × Nat)

/-- The registration-relevant state of a `Store` (`StoreInner` fields
`frame_info`, `stack_map_registry`, `signatures`, `modules`). -/
structure StoreM where
  frame_info : StoreFrameInfo
  stack_maps : StackMapRegistryM
  signatures : SignatureRegistryM
  modules : List Nat
deriving DecidableEq

namespace StoreM

/-- `Store::register_jit_code` from `store.rs`: take the PC of the first
finished function (returning unchanged when there are none), and register
the module's ranges with the frame-info index only when that PC is not
already classified. -/
def register_jit_code (s : StoreM) (m : CompiledModuleM) : StoreM :=
  match m.functionRanges.head? with
  | none => s
  | some f =>
    let first_pc := f.1
    if s.frame_info.contains_pc first_pc then s
    else { s with frame_info := s.frame_info.register m }

/-- `Store::register_stack_maps` from `store.rs`, over the spec-modelled
registry: insert each function's stack maps keyed by its code range. -/
def register_stack_maps (s : StoreM) (m : CompiledModuleM) : StoreM :=
  { s with
    stack_maps := m.stackMaps.foldl (fun reg e => insertKeyed reg e.1 e.2) s.stack_maps }

/-- `Store::register_signatures` from `store.rs`, over the spec-modelled
registry: register every wasm signature of the module with its
trampoline. -/
def register_signatures (s : StoreM) (m : CompiledModuleM) : StoreM :=
  { s with
    signatures := m.sigs.foldl (fun reg e => insertKeyed reg e.1 e.2) s.signatures }

/-- Pinning the module's code: `HashSet::insert` of the `ArcModuleCode`
(pointer identity). -/
def pin_module_code (s : StoreM) (m : CompiledModuleM) : StoreM :=
  { s with
    modules := if s.modules.any fun c => decide (c = m.codeId) then s.modules
               else s.modules ++ [m.codeId] }

/-- `Store::register_module` from `store.rs`: register JIT code, stack
maps and signatures, then pin the module's code. -/
def register_module (s : StoreM) (m : CompiledModuleM) : StoreM :=
  (((s.register_jit_code m).register_stack_maps m).register_signatures m).pin_module_code m

end StoreM

/-- `i64::max_value()`. -/
def i64Max : Int := 2 ^ 63 - 1

/-- `i64::min_value()`. -/
def i64Min : Int := -(2 ^ 63)

/-- `i64::checked_sub`: `none` exactly when the mathematical difference
leaves the 64-bit signed range. -/
def i64CheckedSub (a b : Int) : Option Int :=
  if i64Min ≤ a - b ∧ a - b ≤ i64Max then some (a - b) else none

/-- `i64::checked_add`: `none` exactly when the mathematical sum leaves the
64-bit signed range. -/
def i64CheckedAdd (a b : Int) : Option Int :=
  if i64Min ≤ a + b ∧ a + b ≤ i64Max then some (a + b) else none

/-- `i64::try_from(fuel).unwrap_or(i64::max_value())` for a `u64` fuel
amount: clamp to `i64Max`. -/
def clampFuel (fuel : Nat) : Int :=
  if (fuel : Int) ≤ i64Max then (fuel : Int) else i64Max

/-- `Store::add_fuel` from `store.rs`, acting on the pair
`(fuel_adj, interrupts.fuel_consumed)`.  The happy path moves the clamped
fuel amount from `fuel_consumed` into `fuel_adj`; on overflow of either
checked operation the store keeps the already-consumed amount and
saturates: `fuel_adj = i64::max_value()` and
`fuel_consumed = (fuel_consumed + fuel_adj) - i64::max_value()`. -/
def add_fuel (adj consumed : Int) (fuel : Nat) : Int × Int :=
  let f := clampFuel fuel
  match i64CheckedSub consumed f, i64CheckedAdd adj f with
  | some c, some a => (a, c)
  | _, _ => (i64Max, consumed + adj - i64Max)

/-- `Store::fuel_consumed` from `store.rs` with fuel consumption enabled:
`fuel_adj + interrupts.fuel_consumed` (converted to `u64` in the source;
the sum is what the conversion is applied to). -/
def fuel_consumed (adj consumed : Int) : Int :=
  adj + consumed

/-- The `OutOfGas` behavior enum of `store.rs`. -/
inductive OutOfGas where
  | trap
  | injectFuel (injection_count : Nat) (fuel_to_inject : Nat)
deriving DecidableEq, Repr

/-- The default out-of-gas behavior installed by `Store::_new`. -/
def defaultOutOfGas : OutOfGas := OutOfGas.trap

/-- The fuel-relevant state of a store: the adjustment cell, the
interrupts' consumed counter, and the configured out-of-gas behavior. -/
structure FuelState where
  adj : Int
  consumed : Int
  behavior : OutOfGas
deriving DecidableEq, Repr

/-- The observable outcome of the out-of-gas handler: either a raised trap
(the handler never returns normally) or a suspension of the fiber whose
resumption leaves the store in the recorded state. -/
inductive GasStep where
  | trapped (msg : String)
  | yielded (after : FuelState)
deriving DecidableEq, Repr

/-- The message of the `OutOfGasError` user trap raised by
`Store::out_of_gas_trap`. -/
def outOfGasMsg : String := "all fuel consumed by WebAssembly"

/-- `Store::out_of_gas_yield` from `store.rs`: suspend on a yielding
future; a normal resumption (`Ok`) injects `fuel_to_inject` more fuel via
`add_fuel`, while a cancelled resumption (the future was dropped) raises
the cancellation trap. -/
def out_of_gas_yield (s : FuelState) (fuel_to_inject : Nat)
    (resume : Except String Unit) : GasStep :=
  match resume with
  | Except.ok _ =>
    let p := add_fuel s.adj s.consumed fuel_to_inject
    GasStep.yielded { s with adj := p.1, consumed := p.2 }
  | Except.error msg => GasStep.trapped msg

/-- `<Store as TrapInfo>::out_of_gas` from `store.rs`: with `Trap`
behavior (or an exhausted injection count) raise the out-of-gas user trap;
otherwise decrement the injection count, suspend, and re-inject fuel on
resumption. -/
def out_of_gas (s : FuelState) (resume : Except String Unit) : GasStep :=
  match s.behavior with
  | OutOfGas.trap => GasStep.trapped outOfGasMsg
  | OutOfGas.injectFuel injection_count fuel_to_inject =>
    if injection_count = 0 then GasStep.trapped outOfGasMsg
    else
      out_of_gas_yield
        { s with behavior := OutOfGas.injectFuel (injection_count - 1) fuel_to_inject }
        fuel_to_inject resume

/-- `usize::MAX` on the 64-bit targets wasmtime's JIT supports. -/
def usizeMax : Nat := 2 ^ 64 - 1

/-- `usize::saturating_add`. -/
def saturating_add (a b : Nat) : Nat :=
  min (a + b) usizeMax

/-- The resource counters of `StoreInner`. -/
structure ResourceCounts where
  instance_count : Nat
  memory_count : Nat
  table_count : Nat
deriving DecidableEq, Repr

/-- The per-store quotas read from the engine's config. -/
structure QuotaConfig where
  max_instances : Nat
  max_memories : Nat
  max_tables : Nat
deriving DecidableEq, Repr

/-- The local `bump` helper of `Store::bump_resource_counts`: saturating
increment, quota check, and (on success) the new counter value. -/
def bumpCounter (slot maxQuota amt : Nat) (desc : String) : Except String Nat :=
  let new := saturating_add slot amt
  if maxQuota < new then
    Except.error ("resource limit exceeded: " ++ desc ++ " count too high at "
      ++ toString new)
  else Except.ok new

/-- `Store::bump_resource_counts` from `store.rs`: bump the instance
counter by 1, then the memory counter by the module's defined memory
count, then the table counter by its defined table count — in that order,
with each successful bump committed before the next check, so a later
failure leaves earlier increments in place.  Returns the outcome together
with the final counter state. -/
def bump_resource_counts (cfg : QuotaConfig) (c : ResourceCounts)
    (memories tables : Nat) : Except String Unit × ResourceCounts :=
  match bumpCounter c.instance_count cfg.max_instances 1 "instance" with
  | Except.error msg => (Except.error msg, c)
  | Except.ok ic =>
    let c1 := { c with instance_count := ic }
    match bumpCounter c1.memory_count cfg.max_memories memories "memory" with
    | Except.error msg => (Except.error msg, c1)
    | Except.ok mc =>
      let c2 := { c1 with memory_count := mc }
      match bumpCounter c2.table_count cfg.max_tables tables "table" with
      | Except.error msg => (Except.error msg, c2)
      | Except.ok tc => (Except.ok (), { c2 with table_count := tc })

/-- A wasm instruction as far as trap propagation is concerned: a direct
call to a function index, or `unreachable`. -/
inductive WasmOp where
  | callOp (idx : Nat)
  | unreachableOp
deriving DecidableEq, Repr

/-- A function of an instantiated module: either a host import (whose call
either succeeds or returns a trap with the given message) or a wasm
function with a body of calls. -/
inductive FuncDefM where
  | host (trapMsg : Option String)
  | wasm (body : List WasmOp)
deriving DecidableEq, Repr

/-- A trap as observed by the embedder: its message and its backtrace as a
list of wasm function indices, innermost frame first. -/
structure TrapB where
  message : String
  backtrace : List Nat
deriving DecidableEq, Repr

/-- Modelled from the spec: execution of a wasm function body (the
`Func::call`/trap-propagation machinery is not among the sources; only its
tests are).  Per the spec's backtrace invariant, a trap's backtrace holds
exactly the wasm frames between the trap origin and the host-to-wasm
entry: a trap returned by a host import starts with an empty backtrace
(host frames are excluded), an `unreachable` starts it at the trapping
wasm frame, and each wasm frame the trap unwinds through appends its own
function index. -/
def runOps (callF : Nat → Except TrapB Unit) (idx : Nat) :
    List WasmOp → Except TrapB Unit
  | [] => Except.ok ()
  | WasmOp.unreachableOp :: _ => Except.error ⟨"wasm trap: unreachable", [idx]⟩
  | WasmOp.callOp c :: rest =>
    match callF c with
    | Except.error t => Except.error ⟨t.message, t.backtrace ++ [idx]⟩
    | Except.ok _ => runOps callF idx rest

/-- Modelled from the spec: invoke function `idx` of module `m` with a
call-depth budget `fuel` (every module in the claims has a finite call
depth, so any sufficiently large budget computes the true result). -/
def callFunc (m : List FuncDefM) : Nat → Nat → Except TrapB Unit
  | 0, _ => Except.ok ()
  | fuel + 1, idx =>
    match m.get? idx with
    | none => Except.ok ()
    | some (FuncDefM.host none) => Except.ok ()
    | some (FuncDefM.host (some msg)) => Except.error ⟨msg, []⟩
    | some (FuncDefM.wasm body) => runOps (fun c => callFunc m fuel c) idx body

/-- The module of `test_trap_return`: function 0 is the imported host
`hello` returning `Trap::new("test 123")`, function 1 is the exported
`run` whose body calls `hello`. -/
def trapReturnModule : List FuncDefM :=
  [FuncDefM.host (some "test 123"), FuncDefM.wasm [WasmOp.callOp 0]]

/-- The module of `test_trap_trace_cb`: function 0 is the imported host
`throw` returning `Trap::new("cb throw")`, function 1 is the exported
`run` calling `hello`, function 2 is `hello` calling `throw`. -/
def trapTraceCbModule : List FuncDefM :=
  [FuncDefM.host (some "cb throw"),
   FuncDefM.wasm [WasmOp.callOp 2],
   FuncDefM.wasm [WasmOp.callOp 0]]

/-- The module of `test_trap_trace`: function 0 is the exported `run`
calling `hello`, function 1 is `hello` executing `unreachable`. -/
def trapTraceModule : List FuncDefM :=
  [FuncDefM.wasm [WasmOp.callOp 1], FuncDefM.wasm [WasmOp.unreachableOp]]

/-- The trap-propagation model reproduces `test_trap_trace_cb` from
`crates/api/tests/traps.rs`: message `"cb throw"`, trace of length 2 with
function indices 2 (`hello`) then 1 (`run`) — the host frame of `throw`
(index 0) is excluded. -/
theorem callFunc_matches_trap_trace_cb :
    callFunc trapTraceCbModule 3 1 = Except.error ⟨"cb throw", [2, 1]⟩ := by
  rfl

/-- The trap-propagation model reproduces `test_trap_trace` from
`crates/api/tests/traps.rs`: trace of length 2 with function indices 1
(`hello`, the trapping frame) then 0 (`run`). -/
theorem callFunc_matches_trap_trace :
    callFunc trapTraceModule 2 0 = Except.error ⟨"wasm trap: unreachable", [1, 0]⟩ := by
  rfl

/-- One frame of a wasm backtrace as presented to the embedder: the
module's name, the function's index in the module, and the function's
name-section entry when one is present. -/
structure FrameInfoM where
  module_name : String
  func_index : Nat
  func_name : Option String
deriving DecidableEq, Repr

/-- Hexadecimal rendering of a source location, zero-padded to at least
four digits (cranelift's `SourceLoc` display `@%04x`, matching the
`@0023` literals of the tests). -/
def hex4 (n : Nat) : String :=
  let s := String.mk (Nat.toDigits 16 n)
  String.mk (List.replicate (4 - s.length) '0') ++ s

/-- Modelled from the spec: the display name of a backtrace frame — the
name-section entry when present, otherwise the fallback
`<wasm function N>` with N the function's index. -/
def frameName (fr : FrameInfoM) : String :=
  match fr.func_name with
  | some nm => nm
  | none => "<wasm function " ++ toString fr.func_index ++ ">"

/-- Modelled from the spec: one line of the rendered backtrace,
`  N: <module>!<name>` followed by a newline. -/
def frameLine (i : Nat) (fr : FrameInfoM) : String :=
  "  " ++ toString i ++ ": " ++ fr.module_name ++ "!" ++ frameName fr ++ "\n"

/-- Modelled from the spec: the `Display` rendering of a trap raised in
wasm code (the trap display code is not among the sources; only its tests
are): the `wasm trap: <kind>, source location: @<hex>` line, the
`wasm backtrace:` line, and one numbered line per wasm frame. -/
def trapDisplay (kind : String) (loc : Nat) (frames : List FrameInfoM) : String :=
  "wasm trap: " ++ kind ++ ", source location: @" ++ hex4 loc ++ "\n"
    ++ "wasm backtrace:\n"
    ++ String.join (frames.enum.map fun p => frameLine p.1 p.2)

/-- A wasm value as passed to `Func::call`, carrying its runtime type
tag. -/
inductive ValM where
  | I32 (v : Nat)
  | I64 (v : Nat)
  | F32 (v : Nat)
  | F64 (v : Nat)
deriving DecidableEq, Repr

/-- The wasm type of a runtime value. -/
def ValM.ty : ValM → ValType
  | ValM.I32 _ => ValType.i32
  | ValM.I64 _ => ValType.i64
  | ValM.F32 _ => ValType.f32
  | ValM.F64 _ => ValType.f64

/-- Modelled from the spec: `Func::call` (not among the sources; only its
tests are).  It first validates the argument count against the declared
parameter count, trapping with `expected K arguments, got M`; it then
validates each argument's type against the declared parameter type,
trapping with `argument type mismatch`; only when both validations pass
does it invoke the wasm function through the signature's trampoline
(`invoke`). -/
def func_call (paramTys : List ValType)
    (invoke : List ValM → Except String (List ValM)) (args : List ValM) :
    Except String (List ValM) :=
  if args.length ≠ paramTys.length then
    Except.error ("expected " ++ toString paramTys.length ++ " arguments, got "
      ++ toString args.length)
  else if (args.zip paramTys).any fun p => decide (p.1.ty ≠ p.2) then
    Except.error "argument type mismatch"
  else invoke args

/-- Recognizer for the indirect-call instruction of a trampoline body. -/
def isCallInst : TInst → Bool
  | TInst.callIndirect _ _ => true
  | _ => false

theorem i64CheckedSub_eq {a b c : Int} (h : i64CheckedSub a b = some c) :
    c = a - b := by
  unfold i64CheckedSub at h
  split at h <;> simp_all

theorem i64CheckedAdd_eq {a b c : Int} (h : i64CheckedAdd a b = some c) :
    c = a + b := by
  unfold i64CheckedAdd at h
  split at h <;> simp_all

/-- C8: `Compiler::compile` invoked with strategy `Auto` selects exactly the
primary code generator: its result on any translated module is identical to
the result of compiling with the `Cranelift` strategy, whatever the
code generator computes. -/
theorem compile_auto_eq_cranelift {κ : Type}
    (cranelift_compile_module : ModuleTranslation → κ)
    (translation : ModuleTranslation) :
    Compiler.compile cranelift_compile_module CompilationStrategy.auto translation
      = Compiler.compile cranelift_compile_module CompilationStrategy.cranelift
          translation := rfl

/-- C9: `Store::add_fuel` preserves the value reported by `fuel_consumed`
(the sum `fuel_adj + fuel_consumed` is invariant, in the overflow branch
too), the requested amount is clamped to `i64::max_value()`, and in the
non-overflowing branch the consumed counter decreases by exactly the
clamped amount while `fuel_adj` increases by the same amount. -/
theorem add_fuel_preserves_fuel_consumed (adj consumed : Int) (fuel : Nat) :
    fuel_consumed (add_fuel adj consumed fuel).1 (add_fuel adj consumed fuel).2
        = fuel_consumed adj consumed
    ∧ (i64Max < (fuel : Int) → clampFuel fuel = i64Max)
    ∧ (∀ c a, i64CheckedSub consumed (clampFuel fuel) = some c →
        i64CheckedAdd adj (clampFuel fuel) = some a →
        add_fuel adj consumed fuel
          = (adj + clampFuel fuel, consumed - clampFuel fuel)) := by
  refine ⟨?_, ?_, ?_⟩
  · cases hsub : i64CheckedSub consumed (clampFuel fuel) with
    | none =>
      simp only [fuel_consumed, add_fuel, hsub]
      ring
    | some c =>
      cases hadd : i64CheckedAdd adj (clampFuel fuel) with
      | none =>
        simp only [fuel_consumed, add_fuel, hsub, hadd]
        ring
      | some a =>
        have hc2 := i64CheckedSub_eq hsub
        have ha2 := i64CheckedAdd_eq hadd
        simp only [fuel_consumed, add_fuel, hsub, hadd]
        omega
  · intro h
    unfold clampFuel
    split
    · omega
    · rfl
  · intro c a hc ha
    have hc2 := i64CheckedSub_eq hc
    have ha2 := i64CheckedAdd_eq ha
    simp only [add_fuel, hc, ha]
    rw [hc2, ha2]

/-- C9 witness: at `fuel_adj = 0`, `fuel_consumed = 0`, `add_fuel 10`,
the checked operations succeed, the counters move by the clamped amount,
and the reported consumption is unchanged. -/
theorem add_fuel_preserves_fuel_consumed_witness :
    fuel_consumed (add_fuel 0 0 10).1 (add_fuel 0 0 10).2 = fuel_consumed 0 0
    ∧ add_fuel 0 0 10 = (0 + clampFuel 10, 0 - clampFuel 10) := by
  refine ⟨(add_fuel_preserves_fuel_consumed 0 0 10).1, ?_⟩
  exact (add_fuel_preserves_fuel_consumed 0 0 10).2.2 (0 - clampFuel 10)
    (0 + clampFuel 10) (by decide) (by decide)

/-- C7: crossing zero fuel invokes the out-of-gas handler.  With the
default behavior (which is `Trap`) the handler raises the user trap
`all fuel consumed by WebAssembly` and never returns normally; with the
async fuel-injection behavior it suspends, and a normal resumption
injects `fuel_to_inject` more fuel (via `add_fuel`) and decrements the
injection count, trapping once the count reaches 0. -/
theorem out_of_gas_behavior_spec (s : FuelState) (resume : Except String Unit) :
    defaultOutOfGas = OutOfGas.trap
    ∧ outOfGasMsg = "all fuel consumed by WebAssembly"
    ∧ (s.behavior = OutOfGas.trap → out_of_gas s resume = GasStep.trapped outOfGasMsg)
    ∧ (∀ f, s.behavior = OutOfGas.injectFuel 0 f →
        out_of_gas s resume = GasStep.trapped outOfGasMsg)
    ∧ (∀ n f, s.behavior = OutOfGas.injectFuel (n + 1) f →
        out_of_gas s (Except.ok ()) = GasStep.yielded
          { adj := (add_fuel s.adj s.consumed f).1
            consumed := (add_fuel s.adj s.consumed f).2
            behavior := OutOfGas.injectFuel n f }) := by
  refine ⟨rfl, rfl, ?_, ?_, ?_⟩
  · intro h
    unfold out_of_gas
    rw [h]
  · intro f h
    unfold out_of_gas
    rw [h]
    rfl
  · intro n f h
    unfold out_of_gas
    rw [h]
    rfl

/-- C7 witness: the default behavior traps with the exact message, and a
store configured for two fuel injections of 5 yields once, decrementing
the count to 1 and injecting fuel. -/
theorem out_of_gas_behavior_spec_witness :
    out_of_gas ⟨0, 0, OutOfGas.trap⟩ (Except.ok ()) = GasStep.trapped outOfGasMsg
    ∧ out_of_gas ⟨0, 0, OutOfGas.injectFuel 0 5⟩ (Except.ok ())
        = GasStep.trapped outOfGasMsg
    ∧ out_of_gas ⟨0, 0, OutOfGas.injectFuel 2 5⟩ (Except.ok ())
        = GasStep.yielded
            { adj := (add_fuel 0 0 5).1
              consumed := (add_fuel 0 0 5).2
              behavior := OutOfGas.injectFuel 1 5 } := by
  refine ⟨?_, ?_, ?_⟩
  · exact (out_of_gas_behavior_spec ⟨0, 0, OutOfGas.trap⟩ (Except.ok ())).2.2.1 rfl
  · exact (out_of_gas_behavior_spec ⟨0, 0, OutOfGas.injectFuel 0 5⟩
      (Except.ok ())).2.2.2.1 5 rfl
  · exact (out_of_gas_behavior_spec ⟨0, 0, OutOfGas.injectFuel 2 5⟩
      (Except.ok ())).2.2.2.2 1 5 rfl

/-- C10: `Store::bump_resource_counts` checks and increments the instance,
memory, and table counters in that order with saturating addition (no
counter ever exceeds `usize::MAX`), and it is not atomic on failure: when
a later quota check fails with the `resource limit exceeded` error, the
increments already applied to earlier counters remain in place. -/
theorem bump_resource_counts_spec (cfg : QuotaConfig) (c : ResourceCounts)
    (memories tables : Nat) :
    (∀ a b : Nat, saturating_add a b ≤ usizeMax)
    ∧ (cfg.max_instances < saturating_add c.instance_count 1 →
        bump_resource_counts cfg c memories tables
          = (Except.error ("resource limit exceeded: instance count too high at "
              ++ toString (saturating_add c.instance_count 1)), c))
    ∧ (saturating_add c.instance_count 1 ≤ cfg.max_instances →
       cfg.max_memories < saturating_add c.memory_count memories →
        bump_resource_counts cfg c memories tables
          = (Except.error ("resource limit exceeded: memory count too high at "
              ++ toString (saturating_add c.memory_count memories)),
             { c with instance_count := saturating_add c.instance_count 1 }))
    ∧ (saturating_add c.instance_count 1 ≤ cfg.max_instances →
       saturating_add c.memory_count memories ≤ cfg.max_memories →
       cfg.max_tables < saturating_add c.table_count tables →
        bump_resource_counts cfg c memories tables
          = (Except.error ("resource limit exceeded: table count too high at "
              ++ toString (saturating_add c.table_count tables)),
             { c with instance_count := saturating_add c.instance_count 1,
                      memory_count := saturating_add c.memory_count memories }))
    ∧ (saturating_add c.instance_count 1 ≤ cfg.max_instances →
       saturating_add c.memory_count memories ≤ cfg.max_memories →
       saturating_add c.table_count tables ≤ cfg.max_tables →
        bump_resource_counts cfg c memories tables
          = (Except.ok (),
             { instance_count := saturating_add c.instance_count 1,
               memory_count := saturating_add c.memory_count memories,
               table_count := saturating_add c.table_count tables })) := by
  refine ⟨?_, ?_, ?_, ?_, ?_⟩
  · intro a b
    unfold saturating_add
    exact min_le_right _ _
  · intro h1
    simp only [bump_resource_counts, bumpCounter]
    rw [if_pos h1]
    rfl
  · intro h1 h2
    simp only [bump_resource_counts, bumpCounter]
    rw [if_neg (by omega)]
    simp only
    rw [if_pos h2]
    rfl
  · intro h1 h2 h3
    simp only [bump_resource_counts, bumpCounter]
    rw [if_neg (by omega)]
    simp only
    rw [if_neg (by omega)]
    simp only
    rw [if_pos h3]
    rfl
  · intro h1 h2 h3
    simp only [bump_resource_counts, bumpCounter]
    rw [if_neg (by omega)]
    simp only
    rw [if_neg (by omega)]
    simp only
    rw [if_neg (by omega)]

/-- C10 witness: with quotas (10 instances, 0 memories, 10 tables) and all
counters at 0, instantiating a module with one defined memory fails the
memory quota check, yet the state now records one instance — the instance
increment is not rolled back. -/
theorem bump_resource_counts_spec_witness :
    bump_resource_counts ⟨10, 0, 10⟩ ⟨0, 0, 0⟩ 1 1
      = (Except.error ("resource limit exceeded: memory count too high at "
          ++ toString (saturating_add 0 1)),
         { instance_count := saturating_add 0 1, memory_count := 0,
           table_count := 0 }) := by
  exact (bump_resource_counts_spec ⟨10, 0, 10⟩ ⟨0, 0, 0⟩ 1 1).2.2.1
    (by decide) (by decide)

theorem RelocSink.step_bad {relocs : List Relocation} {e : RelocEvent}
    (h : RelocSink.isLibCallEvent e = false) :
    ∃ msg, RelocSink.step relocs e = Except.error msg := by
  cases e with
  | block o r b => exact ⟨_, rfl⟩
  | constant o r c => exact ⟨_, rfl⟩
  | jumpTable o r j => exact ⟨_, rfl⟩
  | external o r name a =>
    cases name with
    | user n i => exact ⟨_, rfl⟩
    | testcase nm => exact ⟨_, rfl⟩
    | libCall lc => simp [RelocSink.isLibCallEvent] at h

theorem RelocSink.step_ok {relocs relocs2 : List Relocation} {e : RelocEvent}
    (h : RelocSink.step relocs e = Except.ok relocs2) :
    ∃ lc offset reloc addend,
      relocs2 = relocs ++ [⟨reloc, RelocationTarget.libCall lc, offset, addend⟩] := by
  cases e with
  | block o r b => exact absurd h (by simp [RelocSink.step])
  | constant o r c => exact absurd h (by simp [RelocSink.step])
  | jumpTable o r j => exact absurd h (by simp [RelocSink.step])
  | external o r name a =>
    cases name with
    | user n i => exact absurd h (by simp [RelocSink.step])
    | testcase nm => exact absurd h (by simp [RelocSink.step])
    | libCall lc =>
      refine ⟨lc, o, r, a, ?_⟩
      simpa [RelocSink.step] using h.symm

theorem RelocSink.runFrom_ok_libcall (events : List RelocEvent) :
    ∀ acc relocs,
      (∀ r ∈ acc, ∃ lc, r.reloc_target = RelocationTarget.libCall lc) →
      RelocSink.runFrom acc events = Except.ok relocs →
      ∀ r ∈ relocs, ∃ lc, r.reloc_target = RelocationTarget.libCall lc := by
  induction events with
  | nil =>
    intro acc relocs hacc h
    simp only [RelocSink.runFrom] at h
    cases h
    exact hacc
  | cons e rest ih =>
    intro acc relocs hacc h
    simp only [RelocSink.runFrom] at h
    cases hstep : RelocSink.step acc e with
    | error msg => rw [hstep] at h; cases h
    | ok acc2 =>
      rw [hstep] at h
      refine ih acc2 relocs ?_ h
      obtain ⟨lc, offset, reloc, addend, rfl⟩ := RelocSink.step_ok hstep
      intro r hr
      rcases List.mem_append.mp hr with hr1 | hr2
      · exact hacc r hr1
      · rcases List.mem_singleton.mp hr2 with rfl
        exact ⟨lc, rfl⟩

theorem RelocSink.runFrom_error_of_bad (events : List RelocEvent) :
    ∀ acc e, e ∈ events → RelocSink.isLibCallEvent e = false →
      ∃ msg, RelocSink.runFrom acc events = Except.error msg := by
  induction events with
  | nil =>
    intro acc e he
    cases he
  | cons e0 rest ih =>
    intro acc e he hbad
    cases hstep : RelocSink.step acc e0 with
    | error msg =>
      exact ⟨msg, by simp only [RelocSink.runFrom, hstep]⟩
    | ok acc2 =>
      rcases List.mem_cons.mp he with rfl | he2
      · obtain ⟨msg, hmsg⟩ := @RelocSink.step_bad acc e hbad
        rw [hmsg] at hstep
        cases hstep
      · obtain ⟨msg, hmsg⟩ := ih acc2 e he2 hbad
        exact ⟨msg, by simp only [RelocSink.runFrom, hstep, hmsg]⟩

/-- C5: trampoline compilation yields at most libcall relocations.  Every
relocation list the trampoline's `RelocSink` returns successfully contains
only libcall targets, and the presence of any block, constant, jump-table,
or non-libcall external-name relocation event aborts compilation (the sink
panics). -/
theorem trampoline_relocs_only_libcalls (events : List RelocEvent)
    (relocs : List Relocation) :
    (RelocSink.run events = Except.ok relocs →
      ∀ r ∈ relocs, ∃ lc, r.reloc_target = RelocationTarget.libCall lc)
    ∧ (∀ e ∈ events, RelocSink.isLibCallEvent e = false →
        ∃ msg, RelocSink.run events = Except.error msg) := by
  constructor
  · intro h
    exact RelocSink.runFrom_ok_libcall events [] relocs (by simp) h
  · intro e he hbad
    exact RelocSink.runFrom_error_of_bad events [] e he hbad

/-- C5 witness: a lone libcall relocation event is recorded with a libcall
target, while a block relocation event aborts the compilation. -/
theorem trampoline_relocs_only_libcalls_witness :
    RelocSink.run [RelocEvent.external 4 1 (ExternalName.libCall 7) 0]
        = Except.ok [⟨1, RelocationTarget.libCall 7, 4, 0⟩]
    ∧ (∀ r ∈ [(⟨1, RelocationTarget.libCall 7, 4, 0⟩ : Relocation)],
        ∃ lc, r.reloc_target = RelocationTarget.libCall lc)
    ∧ ∃ msg, RelocSink.run [RelocEvent.block 2 1 0] = Except.error msg := by
  refine ⟨rfl, ?_, ?_⟩
  · exact (trampoline_relocs_only_libcalls
      [RelocEvent.external 4 1 (ExternalName.libCall 7) 0]
      [⟨1, RelocationTarget.libCall 7, 4, 0⟩]).1 rfl
  · exact (trampoline_relocs_only_libcalls [RelocEvent.block 2 1 0] []).2
      (RelocEvent.block 2 1 0) (by simp) rfl

theorem insertKeyed_of_keyMem {κ ν : Type} [DecidableEq κ]
    {l : List (κ × ν)} {k : κ} (v : ν) (h : keyMem l k = true) :
    insertKeyed l k v = l := by
  unfold insertKeyed
  rw [if_pos h]

theorem keyMem_insertKeyed_self {κ ν : Type} [DecidableEq κ]
    (l : List (κ × ν)) (k : κ) (v : ν) :
    keyMem (insertKeyed l k v) k = true := by
  unfold insertKeyed
  split
  · assumption
  · simp [keyMem]

theorem keyMem_insertKeyed_mono {κ ν : Type} [DecidableEq κ]
    {l : List (κ × ν)} {k : κ} (k2 : κ) (v : ν) (h : keyMem l k = true) :
    keyMem (insertKeyed l k2 v) k = true := by
  unfold insertKeyed
  split
  · exact h
  · simp only [keyMem, List.any_append]
    simp only [keyMem] at h
    rw [h]
    rfl

theorem keyMem_foldInsert_mono {κ ν : Type} [DecidableEq κ]
    (entries : List (κ × ν)) :
    ∀ (reg : List (κ × ν)) (k : κ), keyMem reg k = true →
      keyMem (entries.foldl (fun reg e => insertKeyed reg e.1 e.2) reg) k = true := by
  induction entries with
  | nil => intro reg k h; exact h
  | cons e rest ih =>
    intro reg k h
    exact ih (insertKeyed reg e.1 e.2) k (keyMem_insertKeyed_mono e.1 e.2 h)

theorem keyMem_foldInsert_self {κ ν : Type} [DecidableEq κ]
    (entries : List (κ × ν)) :
    ∀ (reg : List (κ × ν)), ∀ e ∈ entries,
      keyMem (entries.foldl (fun reg e => insertKeyed reg e.1 e.2) reg) e.1 = true := by
  induction entries with
  | nil => intro reg e he; cases he
  | cons e0 rest ih =>
    intro reg e he
    rcases List.mem_cons.mp he with rfl | he2
    · simp only [List.foldl_cons]
      exact keyMem_foldInsert_mono rest _ e.1 (keyMem_insertKeyed_self reg e.1 e.2)
    · simp only [List.foldl_cons]
      exact ih (insertKeyed reg e0.1 e0.2) e he2

theorem foldInsert_noop {κ ν : Type} [DecidableEq κ] (entries : List (κ × ν)) :
    ∀ (reg : List (κ × ν)), (∀ e ∈ entries, keyMem reg e.1 = true) →
      entries.foldl (fun reg e => insertKeyed reg e.1 e.2) reg = reg := by
  induction entries with
  | nil => intro reg _; rfl
  | cons e0 rest ih =>
    intro reg h
    simp only [List.foldl_cons]
    rw [insertKeyed_of_keyMem e0.2 (h e0 (List.mem_cons_self e0 rest))]
    exact ih reg fun e he => h e (List.mem_cons_of_mem e0 he)

theorem foldInsert_idem {κ ν : Type} [DecidableEq κ]
    (entries reg : List (κ × ν)) :
    (entries.foldl (fun reg e => insertKeyed reg e.1 e.2)
        (entries.foldl (fun reg e => insertKeyed reg e.1 e.2) reg))
      = entries.foldl (fun reg e => insertKeyed reg e.1 e.2) reg :=
  foldInsert_noop entries _ fun e he => keyMem_foldInsert_self entries reg e he

theorem mem_of_head?_eq {α : Type} {l : List α} {a : α} (h : l.head? = some a) :
    a ∈ l := by
  cases l with
  | nil => cases h
  | cons b t =>
    simp only [List.head?_cons, Option.some.injEq] at h
    subst h
    exact List.mem_cons_self b t

theorem register_jit_code_fields (s : StoreM) (m : CompiledModuleM) :
    (s.register_jit_code m).stack_maps = s.stack_maps
    ∧ (s.register_jit_code m).signatures = s.signatures
    ∧ (s.register_jit_code m).modules = s.modules := by
  unfold StoreM.register_jit_code
  cases hh : m.functionRanges.head? with
  | none => exact ⟨rfl, rfl, rfl⟩
  | some f =>
    dsimp only
    split <;> exact ⟨rfl, rfl, rfl⟩

theorem register_module_fields (s : StoreM) (m : CompiledModuleM) :
    s.register_module m = StoreM.mk (s.register_jit_code m).frame_info
      (m.stackMaps.foldl (fun reg e => insertKeyed reg e.1 e.2) s.stack_maps)
      (m.sigs.foldl (fun reg e => insertKeyed reg e.1 e.2) s.signatures)
      (if s.modules.any fun c => decide (c = m.codeId) then s.modules
       else s.modules ++ [m.codeId]) := by
  have h1 := register_jit_code_fields s m
  show StoreM.mk (s.register_jit_code m).frame_info
      (m.stackMaps.foldl (fun reg e => insertKeyed reg e.1 e.2)
        (s.register_jit_code m).stack_maps)
      (m.sigs.foldl (fun reg e => insertKeyed reg e.1 e.2)
        (s.register_jit_code m).signatures)
      (if (s.register_jit_code m).modules.any fun c => decide (c = m.codeId)
       then (s.register_jit_code m).modules
       else (s.register_jit_code m).modules ++ [m.codeId]) = _
  rw [h1.1, h1.2.1, h1.2.2]

theorem contains_pc_register {info : StoreFrameInfo} {m : CompiledModuleM}
    {f : Nat × Nat} (hf : f ∈ m.functionRanges) (hlt : f.1 < f.2) :
    (info.register m).contains_pc f.1 = true := by
  unfold StoreFrameInfo.contains_pc StoreFrameInfo.register
  simp only [List.any_append, Bool.or_eq_true]
  right
  rw [List.any_eq_true]
  exact ⟨(f.1, f.2, m.codeId), List.mem_map.mpr ⟨f, hf, rfl⟩, by simp [hlt]⟩

theorem register_jit_code_contains {s : StoreM} {m : CompiledModuleM}
    {f : Nat × Nat} (hh : m.functionRanges.head? = some f) (hlt : f.1 < f.2) :
    (s.register_jit_code m).frame_info.contains_pc f.1 = true := by
  unfold StoreM.register_jit_code
  rw [hh]
  dsimp only
  split
  · next hc => exact hc
  · exact contains_pc_register (mem_of_head?_eq hh) hlt

theorem register_jit_code_skips {s : StoreM} {m : CompiledModuleM}
    (h : ∀ f, m.functionRanges.head? = some f →
      s.frame_info.contains_pc f.1 = true) :
    s.register_jit_code m = s := by
  unfold StoreM.register_jit_code
  cases hh : m.functionRanges.head? with
  | none => rfl
  | some f =>
    dsimp only
    rw [if_pos (h f hh)]

/-- C6: `Store::register_module` is idempotent: a second registration of
the same module leaves the frame-info index (no duplicate PC-range
entries), the stack-map registry, the signature registry, and the pinned
module-code set exactly as the first one left them; and
`register_jit_code` only inserts a module's PC ranges when the module's
first function PC is not already classified.  The hypothesis states that
published function bodies occupy nonempty code ranges. -/
theorem register_module_idempotent (s : StoreM) (m : CompiledModuleM)
    (h : ∀ r ∈ m.functionRanges, r.1 < r.2) :
    (s.register_module m).register_module m = s.register_module m
    ∧ (∀ f, m.functionRanges.head? = some f →
        s.frame_info.contains_pc f.1 = true → s.register_jit_code m = s) := by
  constructor
  · have hs1 := register_module_fields s m
    have ha : ((s.register_module m).register_jit_code m).frame_info
        = (s.register_module m).frame_info := by
      rw [register_jit_code_skips]
      intro f hh
      have hlt := h f (mem_of_head?_eq hh)
      have hfi : (s.register_module m).frame_info
          = (s.register_jit_code m).frame_info := by
        rw [hs1]
      rw [hfi]
      exact register_jit_code_contains hh hlt
    have hb : (s.register_module m).stack_maps
        = List.foldl (fun reg e => insertKeyed reg e.1 e.2) s.stack_maps m.stackMaps := by
      rw [hs1]
    have hc : (s.register_module m).signatures
        = List.foldl (fun reg e => insertKeyed reg e.1 e.2) s.signatures m.sigs := by
      rw [hs1]
    have hd : (s.register_module m).modules
        = (if s.modules.any fun c => decide (c = m.codeId) then s.modules
           else s.modules ++ [m.codeId]) := by
      rw [hs1]
    have hfold1 : List.foldl (fun reg e => insertKeyed reg e.1 e.2)
        (List.foldl (fun reg e => insertKeyed reg e.1 e.2) s.stack_maps m.stackMaps)
          m.stackMaps
        = List.foldl (fun reg e => insertKeyed reg e.1 e.2) s.stack_maps m.stackMaps :=
      foldInsert_idem m.stackMaps s.stack_maps
    have hfold2 : List.foldl (fun reg e => insertKeyed reg e.1 e.2)
        (List.foldl (fun reg e => insertKeyed reg e.1 e.2) s.signatures m.sigs) m.sigs
        = List.foldl (fun reg e => insertKeyed reg e.1 e.2) s.signatures m.sigs :=
      foldInsert_idem m.sigs s.signatures
    have hmods : (if (if s.modules.any fun c => decide (c = m.codeId)
          then s.modules else s.modules ++ [m.codeId]).any
            (fun c => decide (c = m.codeId))
        then (if s.modules.any fun c => decide (c = m.codeId)
          then s.modules else s.modules ++ [m.codeId])
        else (if s.modules.any fun c => decide (c = m.codeId)
          then s.modules else s.modules ++ [m.codeId]) ++ [m.codeId])
        = (if s.modules.any fun c => decide (c = m.codeId)
          then s.modules else s.modules ++ [m.codeId]) := by
      by_cases hany : (s.modules.any fun c => decide (c = m.codeId)) = true
      · simp [hany]
      · simp [hany, List.any_append]
    rw [register_module_fields (s.register_module m) m, ha, hb, hc, hd, hfold1,
      hfold2, hmods, ← hb, ← hc, ← hd]
  · intro f hh hc
    exact register_jit_code_skips fun g hg => by
      rw [hh] at hg
      cases hg
      exact hc

/-- C6 witness: registering a one-function module twice in an empty store
equals registering it once, and `register_jit_code` leaves a store whose
frame-info already classifies the module's first function PC untouched. -/
theorem register_module_idempotent_witness :
    ((StoreM.mk ⟨[]⟩ [] [] []).register_module ⟨5, [(100, 200)], [((100, 200), 7)], [(3, 9)]⟩).register_module
        ⟨5, [(100, 200)], [((100, 200), 7)], [(3, 9)]⟩
      = (StoreM.mk ⟨[]⟩ [] [] []).register_module
          ⟨5, [(100, 200)], [((100, 200), 7)], [(3, 9)]⟩
    ∧ (StoreM.mk ⟨[(100, 200, 5)]⟩ [] [] []).register_jit_code
          ⟨5, [(100, 200)], [((100, 200), 7)], [(3, 9)]⟩
      = StoreM.mk ⟨[(100, 200, 5)]⟩ [] [] [] := by
  constructor
  · exact (register_module_idempotent (StoreM.mk ⟨[]⟩ [] [] [])
      ⟨5, [(100, 200)], [((100, 200), 7)], [(3, 9)]⟩ (by decide)).1
  · exact (register_module_idempotent (StoreM.mk ⟨[(100, 200, 5)]⟩ [] [] [])
      ⟨5, [(100, 200)], [((100, 200), 7)], [(3, 9)]⟩ (by decide)).2
      (100, 200) rfl (by decide)

/-- C2 counterexample: in the `test_trap_return` module (host import
`hello` at function index 0, exported wasm `run` at index 1), `run.call([])`
does not return a trap with backtrace `[run, hello]` = `[1, 0]` — the host
frame is excluded from wasm backtraces (as `test_trap_trace_cb` shows for
the analogous module). -/
theorem trap_return_backtrace_counterexample :
    callFunc trapReturnModule 2 1 ≠ Except.error ⟨"test 123", [1, 0]⟩ := by
  intro hcontra
  have h1 : callFunc trapReturnModule 2 1 = Except.error ⟨"test 123", [1]⟩ := rfl
  rw [h1] at hcontra
  simp at hcontra

/-- C2 (amended): in the `test_trap_return` module, `run.call([])` returns
a trap whose message is `test 123` and whose backtrace is `[run]` (the
single wasm frame, index 1); the host import `hello` contributes no
backtrace frame. -/
theorem trap_return_message_and_backtrace :
    callFunc trapReturnModule 2 1 = Except.error ⟨"test 123", [1]⟩ := rfl

/-- The frames observed in `trap_display_pretty`: module `m`, functions
`die` (0, named), 1 (unnamed), `foo` (2, named), 3 (unnamed). -/
def prettyFrames : List FrameInfoM :=
  [⟨"m", 0, some "die"⟩, ⟨"m", 1, none⟩, ⟨"m", 2, some "foo"⟩, ⟨"m", 3, none⟩]

/-- The frames observed in `trap_display_multi_module`: module `a`'s four
frames followed by module `b`'s `middle` (1, named) and 2 (unnamed). -/
def multiModuleFrames : List FrameInfoM :=
  [⟨"a", 0, some "die"⟩, ⟨"a", 1, none⟩, ⟨"a", 2, some "foo"⟩, ⟨"a", 3, none⟩,
   ⟨"b", 1, some "middle"⟩, ⟨"b", 2, none⟩]

/-- C3: the `Display` rendering of a wasm trap is exactly the line
`wasm trap: <kind>, source location: @<hex>`, the line `wasm backtrace:`,
and one line `  N: <module>!<name>` per wasm frame, where the name falls
back to `<wasm function N>` when there is no name-section entry; on the
frames of `trap_display_pretty` and `trap_display_multi_module` (both with
trap kind `unreachable` at source location 0x23) it reproduces the tests'
literal expected strings. -/
theorem trap_display_format :
    (∀ m i nm, frameName ⟨m, i, some nm⟩ = nm)
    ∧ (∀ m i, frameName ⟨m, i, none⟩ = "<wasm function " ++ toString i ++ ">")
    ∧ (∀ kind loc frames, trapDisplay kind loc frames
        = "wasm trap: " ++ kind ++ ", source location: @" ++ hex4 loc ++ "\n"
          ++ "wasm backtrace:\n"
          ++ String.join (frames.enum.map fun p =>
              "  " ++ toString p.1 ++ ": " ++ p.2.module_name ++ "!"
                ++ frameName p.2 ++ "\n"))
    ∧ trapDisplay "unreachable" 35 prettyFrames
        = "wasm trap: unreachable, source location: @0023\nwasm backtrace:\n  0: m!die\n  1: m!<wasm function 1>\n  2: m!foo\n  3: m!<wasm function 3>\n"
    ∧ trapDisplay "unreachable" 35 multiModuleFrames
        = "wasm trap: unreachable, source location: @0023\nwasm backtrace:\n  0: a!die\n  1: a!<wasm function 1>\n  2: a!foo\n  3: a!<wasm function 3>\n  4: b!middle\n  5: b!<wasm function 2>\n" := by
  refine ⟨fun m i nm => rfl, fun m i => rfl, fun kind loc frames => rfl, rfl, rfl⟩

/-- C4: `Func::call` validates before invoking.  With an argument count M
different from the declared parameter count K it traps with
`expected K arguments, got M`; with a matching count but some argument of
the wrong type it traps with `argument type mismatch`; in both cases the
result is the same for every possible wasm body, i.e. the body is not
invoked. -/
theorem func_call_validates (paramTys : List ValType) (args : List ValM) :
    (args.length ≠ paramTys.length →
      ∀ invoke, func_call paramTys invoke args
        = Except.error ("expected " ++ toString paramTys.length
            ++ " arguments, got " ++ toString args.length))
    ∧ (args.length = paramTys.length →
       ((args.zip paramTys).any fun p => decide (p.1.ty ≠ p.2)) = true →
      ∀ invoke, func_call paramTys invoke args
        = Except.error "argument type mismatch") := by
  constructor
  · intro hlen invoke
    unfold func_call
    rw [if_pos hlen]
  · intro hlen hbad invoke
    unfold func_call
    rw [if_neg (by omega), if_pos hbad]

/-- C4 witness: for an exported function of type `(param i32)` (one
parameter), calling with zero arguments, with one `f32` argument, and with
two `i32` arguments produces the three literal trap messages of the
`mismatched_arguments` test, for an arbitrary concrete body. -/
theorem func_call_validates_witness :
    func_call [ValType.i32] (fun _ => Except.ok []) []
        = Except.error "expected 1 arguments, got 0"
    ∧ func_call [ValType.i32] (fun _ => Except.ok []) [ValM.F32 0]
        = Except.error "argument type mismatch"
    ∧ func_call [ValType.i32] (fun _ => Except.ok []) [ValM.I32 0, ValM.I32 1]
        = Except.error "expected 1 arguments, got 2" := by
  refine ⟨?_, ?_, ?_⟩
  · exact (func_call_validates [ValType.i32] []).1 (by decide)
      (fun _ => Except.ok [])
  · exact (func_call_validates [ValType.i32] [ValM.F32 0]).2 (by decide)
      (by decide) (fun _ => Except.ok [])
  · exact (func_call_validates [ValType.i32] [ValM.I32 0, ValM.I32 1]).1
      (by decide) (fun _ => Except.ok [])

theorem calleeArgs_length (sig : Signature) (v : Nat) :
    (calleeArgs sig v).length = sig.params.length := by
  simp [calleeArgs]

theorem calleeArgs_zero (sig : Signature) (v : Nat)
    (h : 0 < sig.params.length) :
    (calleeArgs sig v)[0]? = some (TVal.blockParam 0) := by
  unfold calleeArgs
  rw [List.getElem?_map, List.getElem?_enum, List.getElem?_eq_getElem h]
  rfl

theorem calleeArgs_one (sig : Signature) (v : Nat)
    (h : 1 < sig.params.length) :
    (calleeArgs sig v)[1]? = some (TVal.blockParam 1) := by
  unfold calleeArgs
  rw [List.getElem?_map, List.getElem?_enum, List.getElem?_eq_getElem h]
  rfl

theorem calleeArgs_loads (sig : Signature) (v k : Nat)
    (h : k + 2 < sig.params.length) :
    (calleeArgs sig v)[k + 2]?
      = some (TVal.load (sig.params.get ⟨k + 2, h⟩) (TVal.blockParam 3)
          ((k + 2 - 2) * v)) := by
  unfold calleeArgs
  rw [List.getElem?_map, List.getElem?_enum, List.getElem?_eq_getElem h]
  rfl

theorem storeInsts_length (sig : Signature) (v : Nat) :
    (storeInsts sig v).length = sig.results.length := by
  simp [storeInsts]

theorem storeInsts_getElem? (sig : Signature) (v j : Nat)
    (h : j < sig.results.length) :
    (storeInsts sig v)[j]?
      = some (TInst.store (TVal.callResult j) (TVal.blockParam 3) (j * v)) := by
  unfold storeInsts
  rw [List.getElem?_map, List.getElem?_enum, List.getElem?_eq_getElem h]
  rfl

theorem body_filter_call (sig : Signature) (v : Nat) :
    (make_trampoline sig v).body.filter isCallInst
      = [TInst.callIndirect (TVal.blockParam 2) (calleeArgs sig v)] := by
  unfold make_trampoline
  simp only [List.filter_append]
  have h1 : (loadInsts sig v).filter isCallInst = [] := by
    rw [List.filter_eq_nil_iff]
    intro a ha
    obtain ⟨w, hw, hwa⟩ := List.mem_filterMap.mp ha
    cases w with
    | blockParam i => cases hwa
    | callResult j => cases hwa
    | load ty base off =>
      have hwa2 : TInst.load ty base off = a := Option.some.inj hwa
      rw [← hwa2]
      simp [isCallInst]
  have h2 : (storeInsts sig v).filter isCallInst = [] := by
    rw [List.filter_eq_nil_iff]
    intro a ha
    obtain ⟨p, hp, hpa⟩ := List.mem_map.mp ha
    rw [← hpa]
    simp [isCallInst, storeInsts]
  rw [h1, h2]
  rfl

/-- C1: for every signature, the synthesized trampoline has the uniform
host signature `(vmctx, caller_vmctx, callee, values_buf)` (four pointer
parameters); it passes its own `vmctx` and `caller_vmctx` parameters as
the callee's first two arguments (not reads from the buffer); it loads
every remaining argument `i ≥ 2` (written `k + 2`) from the values buffer
at byte offset `(i - 2) * value_size` with `value_size = 16 =
size_of::<u128>()` (the value `Compiler::compile` passes); it performs
exactly one indirect call, to the callee address parameter, with the
assembled arguments; and it stores each result `j` back into the values
buffer at byte offset `j * value_size`. -/
theorem make_trampoline_uniform (sig : Signature) :
    (make_trampoline sig u128Size).wrapperParams
        = [ValType.ptr, ValType.ptr, ValType.ptr, ValType.ptr]
    ∧ u128Size = 16
    ∧ (calleeArgs sig u128Size).length = sig.params.length
    ∧ (0 < sig.params.length →
        (calleeArgs sig u128Size)[0]? = some (TVal.blockParam 0))
    ∧ (1 < sig.params.length →
        (calleeArgs sig u128Size)[1]? = some (TVal.blockParam 1))
    ∧ (∀ k, ∀ h : k + 2 < sig.params.length,
        (calleeArgs sig u128Size)[k + 2]?
          = some (TVal.load (sig.params.get ⟨k + 2, h⟩) (TVal.blockParam 3)
              ((k + 2 - 2) * 16)))
    ∧ (make_trampoline sig u128Size).body.filter isCallInst
        = [TInst.callIndirect (TVal.blockParam 2) (calleeArgs sig u128Size)]
    ∧ (storeInsts sig u128Size).length = sig.results.length
    ∧ (∀ j, j < sig.results.length →
        (storeInsts sig u128Size)[j]?
          = some (TInst.store (TVal.callResult j) (TVal.blockParam 3)
              (j * 16))) := by
  refine ⟨rfl, rfl, calleeArgs_length sig u128Size, ?_, ?_, ?_, ?_, ?_, ?_⟩
  · intro h
    exact calleeArgs_zero sig u128Size h
  · intro h
    exact calleeArgs_one sig u128Size h
  · intro k h
    exact calleeArgs_loads sig u128Size k h
  · exact body_filter_call sig u128Size
  · exact storeInsts_length sig u128Size
  · intro j h
    exact storeInsts_getElem? sig u128Size j h

/-- A sample signature for exercising the trampoline synthesizer: wasm
parameters `(vmctx, caller_vmctx, i32, f64)` and one `i64` result. -/
def sampleSig : Signature :=
  ⟨[ValType.ptr, ValType.ptr, ValType.i32, ValType.f64], [ValType.i64]⟩

/-- C1 witness: on `sampleSig`, argument 0 is the trampoline's `vmctx`,
argument 1 its `caller_vmctx`, argument 2 is loaded from the buffer at
byte offset 0, the body's one call targets the callee address with the
assembled arguments, and result 0 is stored back at byte offset 0. -/
theorem make_trampoline_uniform_witness :
    (calleeArgs sampleSig u128Size)[0]? = some (TVal.blockParam 0)
    ∧ (calleeArgs sampleSig u128Size)[1]? = some (TVal.blockParam 1)
    ∧ (calleeArgs sampleSig u128Size)[0 + 2]?
        = some (TVal.load ValType.i32 (TVal.blockParam 3) ((0 + 2 - 2) * 16))
    ∧ (make_trampoline sampleSig u128Size).body.filter isCallInst
        = [TInst.callIndirect (TVal.blockParam 2) (calleeArgs sampleSig u128Size)]
    ∧ (storeInsts sampleSig u128Size)[0]?
        = some (TInst.store (TVal.callResult 0) (TVal.blockParam 3) (0 * 16)) := by
  refine ⟨?_, ?_, ?_, ?_, ?_⟩
  · exact (make_trampoline_uniform sampleSig).2.2.2.1 (by decide)
  · exact (make_trampoline_uniform sampleSig).2.2.2.2.1 (by decide)
  · exact (make_trampoline_uniform sampleSig).2.2.2.2.2.1 0 (by decide)
  · exact (make_trampoline_uniform sampleSig).2.2.2.2.2.2.1
  · exact (make_trampoline_uniform sampleSig).2.2.2.2.2.2.2.2 0 (by decide)

end Wasmtime
